import Mathlib

/-!
Verification of the dynamic form engine (`RegistrationFormModal.tsx`):
field definitions, draft values, the `validateForm` / `handleSubmit` /
`handleFieldChange` logic, and the modal's event-level behavior
(close, submit, change) as a shallow embedding.

JavaScript records (`Record<string, any>`) are embedded as association
lists with unique keys maintained by `upsert` (property assignment);
`rlookup` is property access. JavaScript truthiness of draft values is
embedded by `truthy`: an absent key and the empty string are falsy,
every other string and every array (including the empty array) is truthy.
-/

/-- A form field definition, mirroring the `FormField` interface
(id, label, field_type, placeholder, options, is_required, sort_order). -/
structure FormField where
  id : String
  label : String
  field_type : String
  placeholder : String
  options : List String
  is_required : Bool
  sort_order : Nat
  deriving DecidableEq, Repr

/-- A draft value: form inputs store strings, checkbox groups store
arrays of strings (`formData[field.id]` is `any` in the source). -/
inductive Value where
  | str (s : String)
  | list (l : List String)
  deriving DecidableEq, Repr

/-- JavaScript truthiness of a `Value`: the empty string is falsy,
every other string is truthy, and every array is truthy (including `[]`). -/
def truthyV : Value → Bool
  | Value.str s => !s.isEmpty
  | Value.list _ => true

/-- JavaScript truthiness of `record[key]`: `undefined` (absent) is falsy. -/
def truthy : Option Value → Bool
  | none => false
  | some v => truthyV v

/-- JavaScript string coercion of a `Value` (arrays join with `,`),
as applied by `RegExp.test` to a non-string argument. -/
def valueToString : Value → String
  | Value.str s => s
  | Value.list l => String.intercalate "," l

/-- Property access on a record embedded as an association list. -/
def rlookup (m : List (String × α)) (k : String) : Option α :=
  match m with
  | [] => none
  | (k', v) :: rest => if k' = k then some v else rlookup rest k

/-- Property assignment on a record: replace the binding if the key is
present, append it otherwise (JavaScript records have unique keys). -/
def upsert (m : List (String × α)) (k : String) (v : α) : List (String × α) :=
  match m with
  | [] => [(k, v)]
  | (k', v') :: rest => if k' = k then (k, v) :: rest else (k', v') :: upsert rest k v

/-- The `Object.keys` view of an embedded record. -/
def rkeys (m : List (String × α)) : List String := m.map Prod.fst

/-- The character class `\s` of a JavaScript regular expression
(ECMAScript WhiteSpace and LineTerminator code points). -/
def jsWhitespace (c : Char) : Bool :=
  let n := c.toNat
  n = 32 || n = 9 || n = 10 || n = 13 || n = 11 || n = 12 ||
  n = 160 || n = 5760 || (8192 ≤ n && n ≤ 8202) || n = 8232 || n = 8233 ||
  n = 8239 || n = 8287 || n = 12288 || n = 65279

/-- The character class `[^\s@]` of the email pattern. -/
def emailChar (c : Char) : Bool := !jsWhitespace c && !(c = '@')

/-- Decides whether `l = B ++ '.' :: C` for some `B` and
some nonempty `C` (the `\.[^\s@]+$` tail inside the domain). -/
def hasDotSplit : List Char → Bool
  | [] => false
  | c :: rest => (c = '.' && !rest.isEmpty) || hasDotSplit rest

/-- Embedding of `emailRegex.test`: decides the language of
`/^[^\s@]+@[^\s@]+\.[^\s@]+$/` — a nonempty `[^\s@]` local part, a
literal `@`, and a domain of `[^\s@]` characters containing a dot that
is neither its first nor its last character. -/
def emailRegexTest (s : String) : Bool :=
  match s.data.dropWhile (fun c => !(c = '@')) with
  | [] => false
  | _ :: domain =>
      !(s.data.takeWhile (fun c => !(c = '@'))).isEmpty &&
      (s.data.takeWhile (fun c => !(c = '@'))).all emailChar &&
      domain.all emailChar &&
      (match domain with
       | [] => false
       | _ :: drest => hasDotSplit drest)

/-- The character class `[\d\s\-\+\(\)]` of the phone pattern. -/
def phoneChar (c : Char) : Bool :=
  c.isDigit || jsWhitespace c || c = '-' || c = '+' || c = '(' || c = ')'

/-- Embedding of `phoneRegex.test`: decides the language of `/^[\d\s\-\+\(\)]+$/`. -/
def phoneRegexTest (s : String) : Bool :=
  !s.data.isEmpty && s.data.all phoneChar

/-- The error `validateForm` records for one field given the field's
draft value: the three sequential checks of the loop body, later
assignments to `newErrors[field.id]` overwriting earlier ones. -/
def fieldError (field : FormField) (v : Option Value) : Option String :=
  let e : Option String := none
  let e := if field.is_required && !truthy v then some (field.label ++ " is required") else e
  let e := if field.field_type = "email" && truthy v &&
              !emailRegexTest (valueToString ((v.getD (Value.str "")))) then
             some "Please enter a valid email address" else e
  let e := if field.field_type = "phone" && truthy v &&
              !phoneRegexTest (valueToString ((v.getD (Value.str "")))) then
             some "Please enter a valid phone number" else e
  e

/-- The `fields.forEach` record-building loop shared by `validateForm`
and `handleSubmit`: walk the field list in order and, whenever
`val f = some v`, assign `record[key f] = v`. -/
def recFold (key : FormField → String) (val : FormField → Option α) :
    List FormField → List (String × α) → List (String × α)
  | [], acc => acc
  | f :: rest, acc =>
      recFold key val rest
        (match val f with
         | some v => upsert acc (key f) v
         | none => acc)

/-- Embedding of `validateForm`: iterate the field list building `newErrors`, keyed
by field identity. -/
def validateForm (fields : List FormField) (formData : List (String × Value)) :
    List (String × String) :=
  recFold FormField.id (fun field => fieldError field (rlookup formData field.id)) fields []

/-- The component state relevant to the claims: the draft (`formData`),
the error record (`errors`), and the `isSubmitting` / `isSuccess` flags. -/
structure ModalState where
  formData : List (String × Value)
  errors : List (String × String)
  isSubmitting : Bool
  isSuccess : Bool
  deriving DecidableEq, Repr

/-- The initial state on mount: empty draft, no errors, not busy. -/
def initialState : ModalState :=
  { formData := [], errors := [], isSubmitting := false, isSuccess := false }

/-- The expression `formData[field.id] || ''`: the value persisted for one field —
the draft value when truthy, the empty string otherwise. -/
def submitValue : Option Value → Value
  | none => Value.str ""
  | some v => if truthyV v then v else Value.str ""

/-- The `responses` record built in `handleSubmit`:
`responses[field.label] = formData[field.id] || ''` for each field,
keyed by field label. -/
def buildResponses (fields : List FormField) (formData : List (String × Value)) :
    List (String × Value) :=
  recFold FormField.label
    (fun field => some (submitValue (rlookup formData field.id))) fields []

/-- The expression `programId || null` (same for course): the empty string and an
absent value both coerce to null. -/
def orNull : Option String → Option String
  | none => none
  | some s => if s.isEmpty then none else some s

/-- The row inserted into `form_submissions`. -/
structure SubmissionInsert where
  form_id : String
  program_id : Option String
  course_id : Option String
  responses : List (String × Value)
  deriving DecidableEq, Repr

/-- Embedding of `handleSubmit`: run `validateForm` (which records the recomputed
error set); if any error was recorded, return without a persistence
call. Otherwise build the label-keyed `responses` record and insert it;
the busy flag is set for the duration of the call and cleared after;
`isSuccess` is set only when the insert reported no error. Returns the
post-state and the insert payload (`none` when no call was made). -/
def handleSubmit (formId : String) (programId courseId : Option String)
    (fields : List FormField) (st : ModalState) (insertError : Bool) :
    ModalState × Option SubmissionInsert :=
  let newErrors := validateForm fields st.formData
  if !newErrors.isEmpty then
    ({ st with errors := newErrors }, none)
  else
    let responses := buildResponses fields st.formData
    let ins : SubmissionInsert :=
      { form_id := formId, program_id := orNull programId,
        course_id := orNull courseId, responses := responses }
    ({ st with errors := newErrors, isSubmitting := false,
               isSuccess := if insertError then st.isSuccess else true },
     some ins)

/-- Embedding of `handleFieldChange`: store the new draft value; if the field
currently has a truthy error, overwrite it with the empty string
(the key is kept, but an empty message no longer renders). -/
def handleFieldChange (st : ModalState) (fieldId : String) (v : Value) : ModalState :=
  let fd := upsert st.formData fieldId v
  let errs :=
    match rlookup st.errors fieldId with
    | some msg => if !msg.isEmpty then upsert st.errors fieldId "" else st.errors
    | none => st.errors
  { st with formData := fd, errors := errs }

/-- Whether a field's inline error paragraph renders:
`errors[field.id] && <p>…</p>` — the message must be present and nonempty. -/
def errorRenders (errors : List (String × String)) (fieldId : String) : Bool :=
  match rlookup errors fieldId with
  | some msg => !msg.isEmpty
  | none => false

/-- User-initiated events on the modal. A `submit` event carries the
outcome the remote insert would report; `close` is the explicit close
action (header ✕, Cancel button, or the success panel's Close button). -/
inductive Event where
  | change (fieldId : String) (v : Value)
  | submit (insertError : Bool)
  | close
  deriving DecidableEq, Repr

/-- Externally visible side effects of one event: at most a persistence
call (the component performs inserts only inside `handleSubmit`). -/
inductive Effect where
  | insert (payload : SubmissionInsert)
  deriving DecidableEq, Repr

/-- One step of the modal: `none` is the closed/unmounted state (the
component's draft state is discarded). `close` invokes `onClose`, which
unmounts the modal; it performs no store operation from any state. -/
def step (formId : String) (programId courseId : Option String)
    (fields : List FormField) (s : Option ModalState) (e : Event) :
    Option ModalState × List Effect :=
  match s, e with
  | none, _ => (none, [])
  | some _, Event.close => (none, [])
  | some st, Event.change fieldId v => (some (handleFieldChange st fieldId v), [])
  | some st, Event.submit insertError =>
      let (st', ins) := handleSubmit formId programId courseId fields st insertError
      (some st', (ins.map Effect.insert).toList)

/-! ### Record lemmas -/

theorem rlookup_upsert_self (m : List (String × α)) (k : String) (v : α) :
    rlookup (upsert m k v) k = some v := by
  induction m with
  | nil => simp [upsert, rlookup]
  | cons p rest ih =>
    obtain ⟨k', v'⟩ := p
    by_cases h : k' = k
    · simp [upsert, h, rlookup]
    · simp [upsert, h, rlookup, ih]

theorem rlookup_upsert_ne (m : List (String × α)) (k k' : String) (v : α)
    (h : k ≠ k') : rlookup (upsert m k v) k' = rlookup m k' := by
  induction m with
  | nil => simp [upsert, rlookup, h]
  | cons p rest ih =>
    obtain ⟨a, b⟩ := p
    by_cases ha : a = k
    · subst ha
      simp [upsert, rlookup, h]
    · simp [upsert, ha, rlookup, ih]

theorem mem_rkeys_upsert (m : List (String × α)) (k k' : String) (v : α) :
    k' ∈ rkeys (upsert m k v) ↔ k' = k ∨ k' ∈ rkeys m := by
  induction m with
  | nil => simp [upsert, rkeys]
  | cons p rest ih =>
    obtain ⟨a, b⟩ := p
    by_cases h : a = k
    · subst h
      simp [upsert, rkeys]
    · simp only [upsert, if_neg h, rkeys, List.map_cons, List.mem_cons]
      rw [show rkeys (upsert rest k v) = (upsert rest k v).map Prod.fst from rfl] at ih
      rw [ih]
      tauto

theorem rlookup_isEmpty_false (m : List (String × α)) (k : String) (v : α)
    (h : rlookup m k = some v) : m.isEmpty = false := by
  cases m with
  | nil => simp [rlookup] at h
  | cons p rest => rfl

theorem recFold_rlookup_not_mem (key : FormField → String) (val : FormField → Option α)
    (fields : List FormField) (k : String) (h : ∀ f ∈ fields, key f ≠ k)
    (acc : List (String × α)) :
    rlookup (recFold key val fields acc) k = rlookup acc k := by
  induction fields generalizing acc with
  | nil => rfl
  | cons g rest ih =>
    have hg : key g ≠ k := h g (List.mem_cons_self g rest)
    have hrest : ∀ f ∈ rest, key f ≠ k := fun f hf => h f (List.mem_cons_of_mem g hf)
    show rlookup (recFold key val rest _) k = _
    rw [ih hrest]
    cases hv : val g with
    | none => rfl
    | some v => simp [rlookup_upsert_ne _ _ _ _ hg]

theorem recFold_rlookup_mem (key : FormField → String) (val : FormField → Option α)
    (fields : List FormField) (f : FormField) (hf : f ∈ fields)
    (hnd : (fields.map key).Nodup) (acc : List (String × α)) :
    rlookup (recFold key val fields acc) (key f)
      = match val f with
        | some v => some v
        | none => rlookup acc (key f) := by
  induction fields generalizing acc with
  | nil => cases hf
  | cons g rest ih =>
    rw [List.map_cons, List.nodup_cons] at hnd
    obtain ⟨hnotin, hndrest⟩ := hnd
    rcases List.mem_cons.mp hf with hfg | hfr
    · subst hfg
      have hrest : ∀ x ∈ rest, key x ≠ key f := by
        intro x hx he
        exact hnotin (he ▸ List.mem_map_of_mem key hx)
      show rlookup (recFold key val rest _) (key f) = _
      rw [recFold_rlookup_not_mem key val rest (key f) hrest]
      cases hv : val f with
      | none => rfl
      | some v => simp [rlookup_upsert_self]
    · have hgf : key g ≠ key f := by
        intro he
        exact hnotin (he ▸ List.mem_map_of_mem key hfr)
      show rlookup (recFold key val rest _) (key f) = _
      rw [ih hfr hndrest]
      cases hv : val f with
      | some v => rfl
      | none =>
        cases hv2 : val g with
        | none => rfl
        | some v2 => simp [rlookup_upsert_ne _ _ _ _ hgf]

theorem mem_rkeys_recFold (key : FormField → String) (val : FormField → Option α)
    (fields : List FormField) (k : String) (acc : List (String × α)) :
    k ∈ rkeys (recFold key val fields acc)
      ↔ (∃ f ∈ fields, key f = k ∧ (val f).isSome) ∨ k ∈ rkeys acc := by
  induction fields generalizing acc with
  | nil => simp [recFold]
  | cons g rest ih =>
    show k ∈ rkeys (recFold key val rest _) ↔ _
    rw [ih]
    cases hv : val g with
    | none => simp [List.exists_mem_cons_iff, hv]
    | some v =>
      rw [mem_rkeys_upsert]
      constructor
      · rintro (⟨f, hf, hk, hs⟩ | hkg | hacc)
        · exact Or.inl ⟨f, List.mem_cons_of_mem g hf, hk, hs⟩
        · exact Or.inl ⟨g, List.mem_cons_self g rest, hkg.symm, by simp [hv]⟩
        · exact Or.inr hacc
      · rintro (⟨f, hf, hk, hs⟩ | hacc)
        · rcases List.mem_cons.mp hf with rfl | hfr
          · exact Or.inr (Or.inl hk.symm)
          · exact Or.inl ⟨f, hfr, hk, hs⟩
        · exact Or.inr (Or.inr hacc)

/-- Under the spec invariant that field identities are unique within a
form, the error `validateForm` records for a field is exactly
`fieldError` of that field's own definition and draft value. -/
theorem validateForm_rlookup (fields : List FormField) (fd : List (String × Value))
    (f : FormField) (hf : f ∈ fields) (hnd : (fields.map FormField.id).Nodup) :
    rlookup (validateForm fields fd) f.id = fieldError f (rlookup fd f.id) := by
  unfold validateForm
  rw [recFold_rlookup_mem FormField.id _ fields f hf hnd []]
  cases fieldError f (rlookup fd f.id) <;> rfl

/-- A field identity that belongs to no field gets no error entry. -/
theorem validateForm_rlookup_not_mem (fields : List FormField)
    (fd : List (String × Value)) (k : String) (h : ∀ f ∈ fields, f.id ≠ k) :
    rlookup (validateForm fields fd) k = none := by
  unfold validateForm
  rw [recFold_rlookup_not_mem FormField.id _ fields k h []]
  rfl

/-- Under unique labels, the response record maps a field's label to
`formData[field.id] || ''`. -/
theorem buildResponses_rlookup (fields : List FormField) (fd : List (String × Value))
    (f : FormField) (hf : f ∈ fields) (hnd : (fields.map FormField.label).Nodup) :
    rlookup (buildResponses fields fd) f.label
      = some (submitValue (rlookup fd f.id)) := by
  unfold buildResponses
  rw [recFold_rlookup_mem FormField.label _ fields f hf hnd []]

/-- The key set of the response record is the set of field labels. -/
theorem mem_rkeys_buildResponses (fields : List FormField)
    (fd : List (String × Value)) (k : String) :
    k ∈ rkeys (buildResponses fields fd) ↔ k ∈ fields.map FormField.label := by
  unfold buildResponses
  rw [mem_rkeys_recFold]
  simp [List.mem_map, rkeys]

/-! ### The email pattern and the `local@domain.tld` shape -/

/-- The spec's "simple `local@domain.tld`-shaped pattern": a nonempty
local part, `@`, a nonempty domain part, `.`, a nonempty tail, all made
of characters that are neither whitespace nor `@`. -/
def emailShape (s : String) : Prop :=
  ∃ A B C : List Char,
    s.data = A ++ '@' :: (B ++ '.' :: C) ∧ A ≠ [] ∧ B ≠ [] ∧ C ≠ [] ∧
    (∀ c ∈ A, emailChar c = true) ∧ (∀ c ∈ B, emailChar c = true) ∧
    (∀ c ∈ C, emailChar c = true)

theorem hasDotSplit_iff (l : List Char) :
    hasDotSplit l = true ↔ ∃ B C : List Char, l = B ++ '.' :: C ∧ C ≠ [] := by
  induction l with
  | nil =>
    simp only [hasDotSplit, Bool.false_eq_true, false_iff]
    rintro ⟨B, C, h, -⟩
    cases B <;> simp at h
  | cons c rest ih =>
    simp only [hasDotSplit, Bool.or_eq_true, Bool.and_eq_true, decide_eq_true_eq,
      Bool.not_eq_true', List.isEmpty_eq_false, ih]
    constructor
    · rintro (⟨rfl, hne⟩ | ⟨B, C, rfl, hC⟩)
      · exact ⟨[], rest, rfl, hne⟩
      · exact ⟨c :: B, C, rfl, hC⟩
    · rintro ⟨B, C, h, hC⟩
      cases B with
      | nil =>
        simp only [List.nil_append, List.cons.injEq] at h
        exact Or.inl ⟨h.1, h.2 ▸ hC⟩
      | cons b B' =>
        simp only [List.cons_append, List.cons.injEq] at h
        exact Or.inr ⟨B', C, h.2, hC⟩

theorem takeWhile_dropWhile_of_all {α : Type} (p : α → Bool) (A R : List α) (x : α)
    (hA : ∀ a ∈ A, p a = true) (hx : p x = false) :
    (A ++ x :: R).takeWhile p = A ∧ (A ++ x :: R).dropWhile p = x :: R := by
  induction A with
  | nil =>
    constructor
    · simp [List.takeWhile_cons, hx]
    · simp [List.dropWhile_cons, hx]
  | cons a A' ih =>
    have hpa : p a = true := hA a (List.mem_cons_self a A')
    have ih' := ih (fun b hb => hA b (List.mem_cons_of_mem a hb))
    constructor
    · simp [List.takeWhile_cons_of_pos hpa, ih'.1]
    · simp [List.dropWhile_cons_of_pos hpa, ih'.2]

theorem dropWhile_head_false {α : Type} (p : α → Bool) (l : List α) (a : α)
    (l' : List α) (h : l.dropWhile p = a :: l') : p a = false := by
  induction l with
  | nil => simp [List.dropWhile] at h
  | cons c rest ih =>
    by_cases hc : p c
    · rw [List.dropWhile_cons_of_pos hc] at h
      exact ih h
    · rw [List.dropWhile_cons_of_neg hc] at h
      cases h
      exact Bool.eq_false_iff.mpr hc

/-- The test `emailRegex.test` accepts exactly the strings of the
`local@domain.tld` shape: the language of `/^[^\s@]+@[^\s@]+\.[^\s@]+$/`. -/
theorem emailRegexTest_iff_emailShape (s : String) :
    emailRegexTest s = true ↔ emailShape s := by
  constructor
  · intro h
    unfold emailRegexTest at h
    cases hdrop : s.data.dropWhile (fun c => !(c = '@')) with
    | nil => rw [hdrop] at h; simp at h
    | cons d domain =>
      rw [hdrop] at h
      have hd : d = '@' := by
        have := dropWhile_head_false _ _ _ _ hdrop
        simpa using this
      cases hdom : domain with
      | nil => rw [hdom] at h; simp at h
      | cons d0 drest =>
        rw [hdom] at h
        simp only [Bool.and_eq_true, Bool.not_eq_true', List.isEmpty_eq_false,
          List.all_eq_true] at h
        obtain ⟨⟨⟨hlpne, hlpall⟩, hdomall⟩, hdot⟩ := h
        obtain ⟨B', C, hsplit, hC⟩ := (hasDotSplit_iff drest).mp hdot
        refine ⟨s.data.takeWhile (fun c => !(c = '@')), d0 :: B', C, ?_, hlpne, by simp,
          hC, hlpall, ?_, ?_⟩
        · have hcat := List.takeWhile_append_dropWhile (fun c => !(c = '@')) s.data
          rw [hdrop, hdom, hsplit, hd] at hcat
          simpa using hcat.symm
        · intro c hc
          rcases List.mem_cons.mp hc with rfl | hc'
          · exact hdomall c (by simp [hdom])
          · exact hdomall c (by simp [hdom, hsplit, hc'])
        · intro c hc
          exact hdomall c (by simp [hdom, hsplit, hc])
  · rintro ⟨A, B, C, hcs, hA, hB, hC, hAe, hBe, hCe⟩
    have hAp : ∀ a ∈ A, (fun c => !(c = '@')) a = true := by
      intro a ha
      have := hAe a ha
      simp only [emailChar, Bool.and_eq_true] at this
      exact this.2
    have hx : (fun c => !(c = '@')) '@' = false := by simp
    obtain ⟨htake, hdrop⟩ :=
      takeWhile_dropWhile_of_all (fun c => !(c = '@')) A (B ++ '.' :: C) '@' hAp hx
    unfold emailRegexTest
    rw [hcs, hdrop, htake]
    cases B with
    | nil => exact absurd rfl hB
    | cons b B' =>
      simp only [List.cons_append, Bool.and_eq_true, Bool.not_eq_true',
        List.isEmpty_eq_false, List.all_eq_true]
      refine ⟨⟨⟨hA, hAe⟩, ?_⟩, ?_⟩
      · intro c hc
        rcases List.mem_cons.mp hc with rfl | hc'
        · exact hBe c (List.mem_cons_self c B')
        · rcases List.mem_append.mp hc' with hcB | hcd
          · exact hBe c (List.mem_cons_of_mem b hcB)
          · rcases List.mem_cons.mp hcd with rfl | hcC
            · decide
            · exact hCe c hcC
      · exact (hasDotSplit_iff _).mpr ⟨B', C, rfl, hC⟩

/-! ### `fieldError` case lemmas -/

/-- A required field with a falsy draft value gets the required error
(the email/phone checks only fire on truthy values, so they cannot
overwrite it). -/
theorem fieldError_required (f : FormField) (v : Option Value)
    (hreq : f.is_required = true) (htr : truthy v = false) :
    fieldError f v = some (f.label ++ " is required") := by
  simp [fieldError, hreq, htr]

/-- An email-typed field with a present (truthy) string value is judged
by `emailRegex` alone. -/
theorem fieldError_email (f : FormField) (s : String)
    (hty : f.field_type = "email") (hs : s.isEmpty = false) :
    fieldError f (some (Value.str s))
      = if emailRegexTest s then none else some "Please enter a valid email address" := by
  have htr : truthy (some (Value.str s)) = true := by simp [truthy, truthyV, hs]
  have h1 : (f.field_type = "email") = True := eq_true hty
  have h2 : (f.field_type = "phone") = False :=
    eq_false (fun hp => by rw [hty] at hp; exact absurd hp (by decide))
  cases h : emailRegexTest s <;>
    simp [fieldError, htr, h1, h2, h, valueToString]

/-- A phone-typed field with a present (truthy) string value is judged
by `phoneRegex` alone. -/
theorem fieldError_phone (f : FormField) (s : String)
    (hty : f.field_type = "phone") (hs : s.isEmpty = false) :
    fieldError f (some (Value.str s))
      = if phoneRegexTest s then none else some "Please enter a valid phone number" := by
  have htr : truthy (some (Value.str s)) = true := by simp [truthy, truthyV, hs]
  have h1 : (f.field_type = "phone") = True := eq_true hty
  have h2 : (f.field_type = "email") = False :=
    eq_false (fun hp => by rw [hty] at hp; exact absurd hp (by decide))
  cases h : phoneRegexTest s <;>
    simp [fieldError, htr, h1, h2, h, valueToString]

/-! ### Sample field definitions for concrete evaluations -/

def nameField : FormField := ⟨"f1", "Name", "text", "Your name", [], true, 0⟩

def emailField : FormField := ⟨"f2", "Email", "email", "Email", [], false, 1⟩

def phoneField : FormField := ⟨"f3", "Phone", "phone", "Phone", [], false, 2⟩

def boxField : FormField := ⟨"f4", "Days", "checkbox", "", ["Mon", "Tue"], true, 3⟩

/-! ### Claims -/

/-- Claim C1: for every field marked required whose draft value is
absent or empty, a submit attempt records exactly the error
"<label> is required" for that field, and submission is blocked: no
persistence call is made. (Unique field identities, per the spec's
data-model invariant.) -/
theorem C1_required_empty_blocks
    (formId : String) (programId courseId : Option String)
    (fields : List FormField) (fd : List (String × Value)) (st : ModalState)
    (insertError : Bool) (f : FormField)
    (hf : f ∈ fields) (hnd : (fields.map FormField.id).Nodup)
    (hreq : f.is_required = true)
    (hempty : rlookup fd f.id = none ∨ rlookup fd f.id = some (Value.str ""))
    (hst : st.formData = fd) :
    rlookup (validateForm fields fd) f.id = some (f.label ++ " is required") ∧
    (handleSubmit formId programId courseId fields st insertError).2 = none := by
  have htr : truthy (rlookup fd f.id) = false := by
    rcases hempty with h | h <;> rw [h] <;> rfl
  have hlook : rlookup (validateForm fields fd) f.id = some (f.label ++ " is required") := by
    rw [validateForm_rlookup fields fd f hf hnd, fieldError_required f _ hreq htr]
  refine ⟨hlook, ?_⟩
  unfold handleSubmit
  rw [hst]
  have hne : (validateForm fields fd).isEmpty = false :=
    rlookup_isEmpty_false _ _ _ hlook
  simp [hne]

theorem C1_witness :
    rlookup (validateForm [nameField] []) "f1"
        = some ("Name" ++ " is required") ∧
    (handleSubmit "form1" none none [nameField] initialState false).2 = none := by
  have h := C1_required_empty_blocks "form1" none none [nameField] [] initialState
    false nameField (by decide) (by decide) (by decide) (Or.inl rfl) rfl
  exact h

/-- Claim C2: validation is all-or-nothing — the submit handler reaches
the persistence call if and only if, after evaluating every field, the
recomputed error record is empty; the recomputed record is stored as
the per-field errors either way, and in the nonempty case no call is
made (`.2 = none`). -/
theorem C2_all_or_nothing (formId : String) (programId courseId : Option String)
    (fields : List FormField) (st : ModalState) (insertError : Bool) :
    ((handleSubmit formId programId courseId fields st insertError).2.isSome
        = (validateForm fields st.formData).isEmpty) ∧
    (handleSubmit formId programId courseId fields st insertError).1.errors
        = validateForm fields st.formData := by
  unfold handleSubmit
  cases h : (validateForm fields st.formData).isEmpty <;> simp [h]

/-- Claim C3: on a successful submit, the persisted response record is
the draft remapped to label keys — its key set is exactly the set of
field labels, and every field without an entered (truthy) value maps to
the empty string rather than being absent. (Labels assumed pairwise
distinct, as the denormalization presumes.) -/
theorem C3_responses_labels (formId : String) (programId courseId : Option String)
    (fields : List FormField) (st : ModalState) (insertError : Bool)
    (ins : SubmissionInsert)
    (hsub : (handleSubmit formId programId courseId fields st insertError).2 = some ins)
    (hnd : (fields.map FormField.label).Nodup) :
    (∀ k, k ∈ rkeys ins.responses ↔ k ∈ fields.map FormField.label) ∧
    (∀ f ∈ fields, truthy (rlookup st.formData f.id) = false →
      rlookup ins.responses f.label = some (Value.str "")) := by
  have hresp : ins.responses = buildResponses fields st.formData := by
    unfold handleSubmit at hsub
    cases h : (validateForm fields st.formData).isEmpty with
    | false => simp [h] at hsub
    | true =>
      simp [h] at hsub
      subst hsub
      rfl
  constructor
  · intro k
    rw [hresp]
    exact mem_rkeys_buildResponses fields st.formData k
  · intro f hf hfalsy
    rw [hresp, buildResponses_rlookup fields st.formData f hf hnd]
    cases hv : rlookup st.formData f.id with
    | none => rfl
    | some v =>
      rw [hv] at hfalsy
      simp only [truthy] at hfalsy
      simp [submitValue, hfalsy]

def c3State : ModalState := { initialState with formData := [("f1", Value.str "Ada")] }

def c3Insert : SubmissionInsert :=
  ⟨"form1", none, none, [("Name", Value.str "Ada"), ("Email", Value.str "")]⟩

theorem C3_witness :
    ("Email" ∈ rkeys c3Insert.responses
        ↔ "Email" ∈ [nameField, emailField].map FormField.label) ∧
    rlookup c3Insert.responses "Email" = some (Value.str "") := by
  have h := C3_responses_labels "form1" none none [nameField, emailField] c3State
    false c3Insert (by decide) (by decide)
  exact ⟨h.1 "Email", h.2 emailField (by decide) (by decide)⟩

/-- Claim C4: for an email-typed field with a present draft value,
validation accepts the value if and only if it has the simple
`local@domain.tld` shape; on mismatch the field's error is
"Please enter a valid email address". -/
theorem C4_email_accepts_iff_shape (f : FormField) (s : String)
    (hty : f.field_type = "email") (hs : s.isEmpty = false) :
    (fieldError f (some (Value.str s)) = none ↔ emailShape s) ∧
    (¬ emailShape s →
      fieldError f (some (Value.str s)) = some "Please enter a valid email address") := by
  rw [fieldError_email f s hty hs]
  cases h : emailRegexTest s with
  | true =>
    have hsh := (emailRegexTest_iff_emailShape s).mp h
    simp [hsh]
  | false =>
    have hsh : ¬ emailShape s := fun hh => by
      rw [(emailRegexTest_iff_emailShape s).mpr hh] at h
      cases h
    simp [hsh]

theorem C4_witness :
    (fieldError emailField (some (Value.str "ada@example.com")) = none
        ↔ emailShape "ada@example.com") ∧
    (¬ emailShape "ada@example.com" →
      fieldError emailField (some (Value.str "ada@example.com"))
        = some "Please enter a valid email address") :=
  C4_email_accepts_iff_shape emailField "ada@example.com" (by decide) (by decide)

/-- The character class the claim asserts for phone values:
digits, the plain space, `-`, `+`, `(`, `)`. -/
def phoneClaimChar (c : Char) : Bool :=
  c.isDigit || c = ' ' || c = '-' || c = '+' || c = '(' || c = ')'

/-- Claim C5 counterexample: the draft value "1⇥" (digit, tab) contains
a character outside `[0-9 \-+()]`, yet a phone-typed field accepts it —
`\s` in the source pattern matches every whitespace character, not just
the plain space. -/
theorem C5_counterexample :
    fieldError phoneField (some (Value.str "1\t")) = none ∧
    ¬ (∀ c ∈ ("1\t" : String).data, phoneClaimChar c = true) := by
  constructor
  · decide
  · decide

/-- Claim C5 amended: for a phone-typed field with a present draft
value, validation accepts the value if and only if every character is a
digit, a whitespace character (any character of the JavaScript `\s`
class, not only the plain space), `-`, `+`, `(` or `)`; otherwise the
field's error is "Please enter a valid phone number". -/
theorem C5_phone_accepts_iff (f : FormField) (s : String)
    (hty : f.field_type = "phone") (hs : s.isEmpty = false) :
    (fieldError f (some (Value.str s)) = none ↔ ∀ c ∈ s.data, phoneChar c = true) ∧
    ((¬ ∀ c ∈ s.data, phoneChar c = true) →
      fieldError f (some (Value.str s)) = some "Please enter a valid phone number") := by
  rw [fieldError_phone f s hty hs]
  have hs' : ¬ s = "" := by
    intro he
    subst he
    exact absurd hs (by decide)
  have hd : s.data.isEmpty = false := by
    rw [List.isEmpty_eq_false]
    intro hn
    exact hs' (String.ext hn)
  cases hall : s.data.all phoneChar with
  | true =>
    have htest : phoneRegexTest s = true := by
      simp [phoneRegexTest, hd, hall]
    have hforall := List.all_eq_true.mp hall
    have hred : (if phoneRegexTest s then (none : Option String)
        else some "Please enter a valid phone number") = none := by
      rw [htest]
      rfl
    rw [hred]
    exact ⟨⟨fun _ => hforall, fun _ => rfl⟩, fun hc => absurd hforall hc⟩
  | false =>
    have htest : phoneRegexTest s = false := by
      simp [phoneRegexTest, hall]
    rw [htest]
    have hnf : ¬ ∀ c ∈ s.data, phoneChar c = true := by
      intro hforall
      rw [List.all_eq_true.mpr hforall] at hall
      cases hall
    simp [hnf]

theorem C5_witness :
    (fieldError phoneField (some (Value.str "+1 (555) 123-4567")) = none
        ↔ ∀ c ∈ ("+1 (555) 123-4567" : String).data, phoneChar c = true) ∧
    ((¬ ∀ c ∈ ("+1 (555) 123-4567" : String).data, phoneChar c = true) →
      fieldError phoneField (some (Value.str "+1 (555) 123-4567"))
        = some "Please enter a valid phone number") :=
  C5_phone_accepts_iff phoneField "+1 (555) 123-4567" (by decide) (by decide)

/-- Claim C6: changing a field's draft value clears exactly that
field's error — afterwards the field's error no longer renders, while
every other field's error entry is unchanged. -/
theorem C6_change_clears_only_own_error (st : ModalState) (fieldId : String) (v : Value)
    (hren : errorRenders st.errors fieldId = true) :
    errorRenders (handleFieldChange st fieldId v).errors fieldId = false ∧
    (∀ g, g ≠ fieldId →
      rlookup (handleFieldChange st fieldId v).errors g = rlookup st.errors g) := by
  unfold errorRenders at hren ⊢
  unfold handleFieldChange
  cases hl : rlookup st.errors fieldId with
  | none => rw [hl] at hren; cases hren
  | some msg =>
    simp only [hl] at hren
    simp only [hl, hren, eq_self_iff_true, if_true]
    constructor
    · rw [rlookup_upsert_self]
      decide
    · intro g hg
      exact rlookup_upsert_ne _ _ _ _ (fun he => hg he.symm)

def c6State : ModalState :=
  { formData := [],
    errors := [("f1", "Name is required"), ("f2", "Please enter a valid email address")],
    isSubmitting := false, isSuccess := false }

theorem C6_witness :
    errorRenders (handleFieldChange c6State "f1" (Value.str "Ada")).errors "f1" = false ∧
    rlookup (handleFieldChange c6State "f1" (Value.str "Ada")).errors "f2"
      = rlookup c6State.errors "f2" := by
  have h := C6_change_clears_only_own_error c6State "f1" (Value.str "Ada") (by decide)
  exact ⟨h.1, h.2 "f2" (by decide)⟩

/-- Claim C7: if validation passes but the insert reports an error, the
component does not reach the success state: `isSuccess` stays false,
the busy flag ends cleared, the error set is empty, and the draft is
unchanged, so the form remains editable and resubmittable. -/
theorem C7_insert_failure (formId : String) (programId courseId : Option String)
    (fields : List FormField) (st : ModalState)
    (hval : (validateForm fields st.formData).isEmpty = true)
    (hsucc : st.isSuccess = false) :
    (handleSubmit formId programId courseId fields st true).1.isSuccess = false ∧
    (handleSubmit formId programId courseId fields st true).1.isSubmitting = false ∧
    (handleSubmit formId programId courseId fields st true).1.errors = [] ∧
    (handleSubmit formId programId courseId fields st true).1.formData = st.formData := by
  unfold handleSubmit
  rw [List.isEmpty_iff] at hval
  simp [hval, hsucc]

theorem C7_witness :
    (handleSubmit "form1" none none [nameField] c3State true).1.isSuccess = false ∧
    (handleSubmit "form1" none none [nameField] c3State true).1.isSubmitting = false ∧
    (handleSubmit "form1" none none [nameField] c3State true).1.errors = [] ∧
    (handleSubmit "form1" none none [nameField] c3State true).1.formData
      = c3State.formData :=
  C7_insert_failure "form1" none none [nameField] c3State (by decide) (by decide)

/-- Claim C8: the close action, available from every state (including
the unmounted one), performs no persistence call and discards the
draft: stepping any state with `close` yields the closed state and an
empty effect list. -/
theorem C8_close_no_persistence (formId : String) (programId courseId : Option String)
    (fields : List FormField) (s : Option ModalState) :
    step formId programId courseId fields s Event.close = (none, []) := by
  cases s <;> rfl

/-- Claim C9: validation is evaluated per field independently of
display order — under unique field identities, permuting the field list
leaves the record of validation errors unchanged at every key. -/
theorem C9_order_independent (fields fields' : List FormField)
    (fd : List (String × Value)) (k : String)
    (hperm : fields.Perm fields')
    (hnd : (fields.map FormField.id).Nodup) :
    rlookup (validateForm fields' fd) k = rlookup (validateForm fields fd) k := by
  have hnd' : (fields'.map FormField.id).Nodup :=
    ((hperm.map FormField.id).nodup_iff).mp hnd
  by_cases hex : ∃ f ∈ fields, f.id = k
  · obtain ⟨f, hf, rfl⟩ := hex
    rw [validateForm_rlookup fields fd f hf hnd,
        validateForm_rlookup fields' fd f (hperm.mem_iff.mp hf) hnd']
  · push_neg at hex
    rw [validateForm_rlookup_not_mem fields fd k (fun f hf => hex f hf),
        validateForm_rlookup_not_mem fields' fd k (fun f hf => hex f (hperm.mem_iff.mpr hf))]

theorem C9_witness :
    rlookup (validateForm [emailField, nameField] []) "f1"
      = rlookup (validateForm [nameField, emailField] []) "f1" :=
  C9_order_independent [nameField, emailField] [emailField, nameField] [] "f1"
    (List.Perm.swap emailField nameField []) (by decide)

/-- Claim C10: a checkbox field whose draft value is the empty list is
treated as filled — the required check passes even when the field is
required (the empty array is truthy) — and the response record maps its
label to the empty list, not the empty string. -/
theorem C10_empty_checkbox (fields : List FormField) (fd : List (String × Value))
    (f : FormField) (hf : f ∈ fields)
    (hty : f.field_type = "checkbox")
    (hv : rlookup fd f.id = some (Value.list []))
    (hnd : (fields.map FormField.label).Nodup) :
    fieldError f (rlookup fd f.id) = none ∧
    rlookup (buildResponses fields fd) f.label = some (Value.list []) := by
  constructor
  · rw [hv]
    have h1 : (f.field_type = "email") = False :=
      eq_false (fun hp => by rw [hty] at hp; exact absurd hp (by decide))
    have h2 : (f.field_type = "phone") = False :=
      eq_false (fun hp => by rw [hty] at hp; exact absurd hp (by decide))
    simp [fieldError, truthy, truthyV, h1, h2]
  · rw [buildResponses_rlookup fields fd f hf hnd, hv]
    rfl

theorem C10_witness :
    fieldError boxField (rlookup [("f4", Value.list [])] boxField.id) = none ∧
    rlookup (buildResponses [boxField] [("f4", Value.list [])]) boxField.label
      = some (Value.list []) :=
  C10_empty_checkbox [boxField] [("f4", Value.list [])] boxField (by decide) (by decide)
    (by decide) (by decide)
